import Mathlib

/-!
Verification of the apiv3 vehicle search engine.

This file is a shallow embedding, in Lean 4, of the search-with-fallback engine
of the apiv3 repository (src/main.py, with the loose text normalizer from
src/xml_fetcher.py), together with theorems settling a fixed list of claims
about it.

Modelling conventions:
* Python strings are `List Char` (`PyStr`); the handful of helpers from the
  Python standard library that the engine uses (`str.strip`, `str.split`,
  `int(...)`, `float(...)`, substring containment) are modelled as structural
  Lean functions on `List Char`, each documented at its definition.
* Python floats are modelled as exact decimal rationals `num / 10 ^ exp`
  (`PyFloat`).  Every float the engine manipulates is obtained from decimal
  literals by division by 100 or multiplication by 1000, so this matches the
  source up to IEEE binary rounding, on which no claim depends.
* Vehicle records are Python dicts with a fixed key set; a missing key is
  modelled by the value `PyVal.none` (which is also the model of a key that is
  present with value `None` - the engine treats both identically in every code
  path exercised here).
* Code that can raise (`int(...)` outside a try/except) returns
  `Except Unit _`, with `Except.error ()` modelling an uncaught `ValueError`.
-/

/-- Python strings, modelled as lists of characters. -/
abbrev PyStr := List Char

/-- The whitespace characters recognised by the model of `str.strip` /
`str.split()` / the regex class `\s`: the six ASCII whitespace characters.
(Unicode whitespace is not modelled.) -/
def pyIsWs (c : Char) : Bool :=
  c = ' ' || c = '\t' || c = '\n' || c = '\r' || c = '\x0b' || c = '\x0c'

/-- Remove the trailing run of whitespace (the second half of `str.strip`). -/
def trimEnd (l : PyStr) : PyStr :=
  ((l.reverse.dropWhile pyIsWs).reverse)

/-- Model of Python `str.strip()`: drop leading and trailing whitespace. -/
def pyStrip (l : PyStr) : PyStr :=
  trimEnd (l.dropWhile pyIsWs)

/-- The accented Latin letters occurring in Brazilian vehicle feeds, paired
with the base letter `unidecode` maps each to. -/
def accentTable : List (Char × Char) :=
  [('á', 'a'), ('à', 'a'), ('â', 'a'), ('ã', 'a'), ('ä', 'a'),
   ('Á', 'A'), ('À', 'A'), ('Â', 'A'), ('Ã', 'A'), ('Ä', 'A'),
   ('é', 'e'), ('è', 'e'), ('ê', 'e'), ('ë', 'e'),
   ('É', 'E'), ('È', 'E'), ('Ê', 'E'), ('Ë', 'E'),
   ('í', 'i'), ('ì', 'i'), ('î', 'i'), ('ï', 'i'),
   ('Í', 'I'), ('Ì', 'I'), ('Î', 'I'), ('Ï', 'I'),
   ('ó', 'o'), ('ò', 'o'), ('ô', 'o'), ('õ', 'o'), ('ö', 'o'),
   ('Ó', 'O'), ('Ò', 'O'), ('Ô', 'O'), ('Õ', 'O'), ('Ö', 'O'),
   ('ú', 'u'), ('ù', 'u'), ('û', 'u'), ('ü', 'u'),
   ('Ú', 'U'), ('Ù', 'U'), ('Û', 'U'), ('Ü', 'U'),
   ('ç', 'c'), ('Ç', 'C'), ('ñ', 'n'), ('Ñ', 'N')]

/-- Model of `unidecode.unidecode` on one character: ASCII characters map to
themselves, the accented letters of `accentTable` map to their base letter,
and any other character maps to the empty string (the unidecode behaviour for
unmapped code points). -/
def unidecodeChar (c : Char) : PyStr :=
  if c.toNat < 128 then [c]
  else
    match accentTable.find? (fun kv => kv.fst = c) with
    | some kv => [kv.snd]
    | none => []

/-- Model of `unidecode.unidecode` on a string. -/
def unidecodeStr (l : PyStr) : PyStr :=
  l.flatMap unidecodeChar

/-- Model of Python `str.lower()`, character-wise; `Char.toLower` lowercases
exactly the ASCII uppercase letters, which is all the engine ever feeds it
(every call happens after `unidecode`). -/
def pyLower (l : PyStr) : PyStr :=
  l.map Char.toLower

/-- Embeds `VehicleSearchEngine.normalize_text` (src/main.py lines 62-66):
`unidecode(str(text)).lower().replace("-", "").replace(" ", "").strip()`,
with the falsy guard `if not text: return ""` (both `None` and the empty
string are falsy and yield the empty string). -/
def normalize_text (text : PyStr) : PyStr :=
  if text = [] then []
  else pyStrip (((pyLower (unidecodeStr text)).filter (· ≠ '-')).filter (· ≠ ' '))

/-- Replace every maximal run of whitespace by a single space - the model of
the regex substitution collapsing whitespace runs, used by the loose
normalizer in src/xml_fetcher.py. -/
def collapseWs : PyStr → PyStr
  | [] => []
  | [c] => if pyIsWs c then [' '] else [c]
  | c :: d :: rest =>
      if pyIsWs c && pyIsWs d then collapseWs (d :: rest)
      else (if pyIsWs c then ' ' else c) :: collapseWs (d :: rest)

/-- The character class kept by the regex substitution removing every
character outside the class a-z, 0-9 and whitespace. -/
def keepLoose (c : Char) : Bool :=
  ('a' ≤ c && c ≤ 'z') || ('0' ≤ c && c ≤ '9') || pyIsWs c

/-- Embeds `normalizar_texto` (src/xml_fetcher.py lines 22-27), the loose
normalization variant: unidecode, lowercase, strip every character outside
`[a-z0-9\s]`, collapse whitespace runs to single spaces, strip the ends.
Falsy input (`None` or the empty string) yields the empty string. -/
def normalizar_texto (texto : PyStr) : PyStr :=
  if texto = [] then []
  else pyStrip (collapseWs ((pyLower (unidecodeStr texto)).filter keepLoose))

/-- Python substring containment, `needle in hay`. -/
def containsSub (hay needle : PyStr) : Bool :=
  needle.isPrefixOf hay ||
    match hay with
    | [] => false
    | _ :: t => containsSub t needle

/-- Model of Python `str.split()` (no separator): split on whitespace runs,
dropping empty pieces. -/
def pySplitWs (l : PyStr) : List PyStr :=
  (l.foldr
    (fun c acc =>
      if pyIsWs c then [] :: acc
      else
        match acc with
        | [] => [[c]]
        | w :: rest => (c :: w) :: rest)
    []).filter (· ≠ [])

/-- Model of Python `str.split(',')`: split at every comma, keeping empty
pieces. -/
def splitOnComma (l : PyStr) : List PyStr :=
  l.foldr
    (fun c acc =>
      if c = ',' then [] :: acc
      else
        match acc with
        | [] => [[c]]
        | w :: rest => (c :: w) :: rest)
    [[]]

/-- The numeric value of a digit string (callers check `Char.isDigit` first). -/
def digitsVal (ds : PyStr) : Nat :=
  ds.foldl (fun a c => 10 * a + (c.toNat - 48)) 0

/-- A non-empty all-digit string, or failure. -/
def digits? (ds : PyStr) : Option Nat :=
  if ds ≠ [] ∧ ds.all Char.isDigit then some (digitsVal ds) else none

/-- Model of Python `int(str)`: optional surrounding whitespace, an optional
single sign, then one or more ASCII digits; anything else raises `ValueError`,
modelled as `none`.  (CPython also accepts underscore separators and non-ASCII
digits; those are not modelled.) -/
def pyInt? (s : PyStr) : Option Int :=
  match pyStrip s with
  | '-' :: ds => (digits? ds).map (fun n => -(n : Int))
  | '+' :: ds => (digits? ds).map (fun n => (n : Int))
  | ds => (digits? ds).map (fun n => (n : Int))

/-- Python floats, modelled as the exact decimal rational `num / 10 ^ exp`.
Every float value the engine produces (decimal string parses, division by 100,
multiplication by 1000) is such a decimal, so the model matches the source up
to IEEE binary rounding, on which no claim depends. -/
structure PyFloat where
  num : Int
  exp : Nat
deriving DecidableEq, Repr

/-- The rational value of a modelled float. -/
def PyFloat.toRat (x : PyFloat) : ℚ := (x.num : ℚ) / 10 ^ x.exp

/-- Embed an integer. -/
def PyFloat.ofInt (n : Int) : PyFloat := ⟨n, 0⟩

/-- Value comparison `x <= y` on modelled floats (denominators cleared). -/
def PyFloat.ble (x y : PyFloat) : Bool :=
  decide (x.num * 10 ^ y.exp ≤ y.num * 10 ^ x.exp)

/-- Value comparison `x < y` on modelled floats. -/
def PyFloat.blt (x y : PyFloat) : Bool :=
  decide (x.num * 10 ^ y.exp < y.num * 10 ^ x.exp)

/-- Comparison of a modelled float with an integer, `x < n`. -/
def PyFloat.bltInt (x : PyFloat) (n : Int) : Bool :=
  decide (x.num < n * 10 ^ x.exp)

/-- Exact float subtraction. -/
def PyFloat.sub (x y : PyFloat) : PyFloat :=
  ⟨x.num * 10 ^ y.exp - y.num * 10 ^ x.exp, x.exp + y.exp⟩

/-- Absolute value. -/
def PyFloat.fabs (x : PyFloat) : PyFloat := ⟨|x.num|, x.exp⟩

/-- Exact division by `10 ^ k` (the engine only divides by 100). -/
def PyFloat.divPow10 (x : PyFloat) (k : Nat) : PyFloat := ⟨x.num, x.exp + k⟩

/-- Exact multiplication by `10 ^ k` (the engine only multiplies by 1000). -/
def PyFloat.mulPow10 (x : PyFloat) (k : Nat) : PyFloat := ⟨x.num * 10 ^ k, x.exp⟩

/-- The body of the model of `float(str)` after sign removal: decimal digits
with at most one point and at least one digit overall. -/
def pyFloatCore (t : PyStr) : Option PyFloat :=
  let ip := t.takeWhile (· ≠ '.')
  match t.dropWhile (· ≠ '.') with
  | [] => (digits? ip).map (fun n => ⟨(n : Int), 0⟩)
  | _ :: fp =>
      if ip.all Char.isDigit ∧ fp.all Char.isDigit ∧ (ip ≠ [] ∨ fp ≠ []) then
        some ⟨(digitsVal (ip ++ fp) : Int), fp.length⟩
      else none

/-- Model of Python `float(str)`: optional surrounding whitespace, an optional
single sign, then decimal digits with at most one point and at least one digit
("12", "12.", ".5", "1.5"); anything else (including exponents, "inf", "nan")
is a `ValueError`, modelled as `none`. -/
def pyFloat? (s : PyStr) : Option PyFloat :=
  match pyStrip s with
  | '-' :: ds => (pyFloatCore ds).map (fun x => ⟨-x.num, x.exp⟩)
  | '+' :: ds => pyFloatCore ds
  | ds => pyFloatCore ds

/-- A Python value as stored in a vehicle record or passed to a converter:
`None` (also modelling a missing dict key), an int, a float, or a string. -/
inductive PyVal where
  | none
  | int (n : Int)
  | float (x : PyFloat)
  | str (s : PyStr)
deriving DecidableEq, Repr

/-- Python truthiness: `None`, `0`, `0.0` and `""` are falsy. -/
def PyVal.truthy : PyVal → Bool
  | .none => false
  | .int n => n ≠ 0
  | .float x => x.num ≠ 0
  | .str s => s ≠ []

/-- Model of Python `str()` on the decimal floats of the embedding: digits of the
numerator with an explicit decimal point, e.g. `20200 / 10 ^ 1` is "2020.0". -/
def pyFloatRepr (x : PyFloat) : PyStr :=
  let ds := (toString x.num.natAbs).data
  let ds := List.replicate (x.exp + 1 - ds.length) '0' ++ ds
  let intPart := ds.take (ds.length - x.exp)
  let fracPart := ds.drop (ds.length - x.exp)
  (if x.num < 0 then ['-'] else []) ++ intPart ++ '.' ::
    (if fracPart = [] then ['0'] else fracPart)

/-- Model of Python `str(value)`. -/
def PyVal.toStr : PyVal → PyStr
  | .none => "None".data
  | .int n => (toString n).data
  | .float x => pyFloatRepr x
  | .str s => s

/-- Model of `str(v.get(key, ""))` where `PyVal.none` stands for a missing
key: a missing key yields the default `""`, any other value its `str()`. -/
def PyVal.getStrD : PyVal → PyStr
  | .none => []
  | v => v.toStr

/-- Python `replace("R$", "")`: drop every (non-overlapping, left-to-right)
occurrence of the two-character pattern. -/
def removeRdollar : PyStr → PyStr
  | [] => []
  | 'R' :: '$' :: t => removeRdollar t
  | c :: t => c :: removeRdollar t

/-- Embeds `VehicleSearchEngine.convert_price` (src/main.py lines 68-81).
Falsy input (None, 0, 0.0, "") returns `None`; numeric input passes through;
string input is cleaned as
`str.replace(",", "").replace("R$", "").replace(".", "").strip()` and parsed,
dividing by 100 when the cleaned string is longer than 2 characters.
`try/except` makes the function total: parse failure returns `None`. -/
def convert_price (price_str : PyVal) : Option PyFloat :=
  if ¬ price_str.truthy then none
  else
    match price_str with
    | .int n => some (.ofInt n)
    | .float x => some x
    | .str s =>
        let cleaned := pyStrip ((removeRdollar (s.filter (· ≠ ','))).filter (· ≠ '.'))
        match pyFloat? cleaned with
        | some x => if 2 < cleaned.length then some (x.divPow10 2) else some x
        | none => none
    | .none => none

/-- Embeds `VehicleSearchEngine.convert_year` (src/main.py lines 83-91):
`int(str(year_str).strip().replace('\n', '').replace('\r', '').replace(' ', ''))`
behind the falsy guard, with parse failure returning `None`. -/
def convert_year (year_str : PyVal) : Option Int :=
  if ¬ year_str.truthy then none
  else
    pyInt? ((((pyStrip year_str.toStr).filter (· ≠ '\n')).filter (· ≠ '\r')).filter (· ≠ ' '))

/-- Embeds `VehicleSearchEngine.convert_km` (src/main.py lines 93-101):
`int(str(km_str).replace(".", "").replace(",", "").strip())` behind the falsy
guard, with parse failure returning `None`. -/
def convert_km (km_str : PyVal) : Option Int :=
  if ¬ km_str.truthy then none
  else pyInt? (pyStrip ((km_str.toStr.filter (· ≠ '.')).filter (· ≠ ',')))

/-- Embeds `VehicleSearchEngine.convert_cc` (src/main.py lines 103-121):
numeric passthrough; strings are cleaned as
`replace(",", ".").replace("L", "").replace("l", "").strip()` and parsed, and a
value below 10 is interpreted as liters and multiplied by 1000. -/
def convert_cc (cc_str : PyVal) : Option PyFloat :=
  if ¬ cc_str.truthy then none
  else
    match cc_str with
    | .int n => some (.ofInt n)
    | .float x => some x
    | .str s =>
        let cleaned :=
          pyStrip (((s.map (fun c => if c = ',' then '.' else c)).filter (· ≠ 'L')).filter (· ≠ 'l'))
        match pyFloat? cleaned with
        | some x => if x.bltInt 10 then some (x.mulPow10 3) else some x
        | none => none
    | .none => none

/-- Fuel-driven longest-common-subsequence length; the fuel is structurally
consumed so that the definition is kernel-reducible.  `lcsLen` below always
supplies enough fuel, so the standard LCS recurrence is computed exactly. -/
def lcsAux : Nat → PyStr → PyStr → Nat
  | 0, _, _ => 0
  | _ + 1, [], _ => 0
  | _ + 1, _ :: _, [] => 0
  | fuel + 1, a :: as, b :: bs =>
      if a = b then lcsAux fuel as bs + 1
      else max (lcsAux fuel (a :: as) bs) (lcsAux fuel as (b :: bs))

/-- Longest common subsequence length of two strings. -/
def lcsLen (a b : PyStr) : Nat := lcsAux (a.length + b.length) a b

/-- The indel (insertion/deletion) edit distance underlying rapidfuzz
`fuzz.ratio`: `|a| + |b| - 2 * lcs(a, b)`. -/
def indelDist (a b : PyStr) : Nat := a.length + b.length - 2 * lcsLen a b

/-- Models the comparison `fuzz.ratio(a, b) >= thr`: the normalized indel
similarity `100 * (total - dist) / total` compared with the threshold exactly,
the positive denominator cleared.  rapidfuzz scores two empty strings 100. -/
def ratioGe (a b : PyStr) (thr : Nat) : Bool :=
  let total := a.length + b.length
  if total = 0 then decide (thr ≤ 100)
  else decide (thr * total ≤ 100 * (total - indelDist a b))

/-- All contiguous substrings of a string. -/
def substringsOf (l : PyStr) : List PyStr :=
  l.tails.flatMap List.inits

/-- Models the comparison `fuzz.partial_ratio(a, b) >= thr`: the best
`fuzz.ratio` of the shorter string against a contiguous substring of the longer
one reaches the threshold. -/
def partRatioGe (a b : PyStr) (thr : Nat) : Bool :=
  let needle := if a.length ≤ b.length then a else b
  let hay := if a.length ≤ b.length then b else a
  (substringsOf hay).any (fun w => ratioGe needle w thr)

/-- Models `max(fuzz.partial_ratio(content, word), fuzz.ratio(content, word))
>= thr` as the disjunction of the two threshold comparisons. -/
def fuzzMaxGe (content word : PyStr) (thr : Nat) : Bool :=
  partRatioGe content word thr || ratioGe content word thr

/-- The word loop of `VehicleSearchEngine.exact_match`: every query word of
normalized length at least 2 must be a substring of the normalized content.
The diagnostic strings of the source are abbreviated, quote-free renderings;
no claim depends on them. -/
def exactLoop (content : PyStr) : List PyStr → Bool × PyStr
  | [] => (true, "exact_match: todas as palavras encontradas".data)
  | w :: ws =>
      let nw := normalize_text w
      if nw.length < 2 then exactLoop content ws
      else if ¬ containsSub content nw then (false, "exact_miss: palavra nao encontrada".data)
      else exactLoop content ws

/-- Embeds `VehicleSearchEngine.exact_match` (src/main.py lines 181-197). -/
def exact_match (query_words : List PyStr) (field_content : PyStr) : Bool × PyStr :=
  if query_words = [] ∨ field_content = [] then (false, "empty_input".data)
  else exactLoop (normalize_text field_content) query_words

/-- The word loop of `_fuzzy_match_all_words`: returns the number of matched
words, or `none` as soon as one eligible word fails.

The source tests, per word: substring of the content; otherwise
(`elif not word_matched:`) prefix of a whitespace token of the content.  The
two further branches of the source (substring of a token, rapidfuzz score at
least the threshold, both for words of length at least 3) are
`elif not word_matched and ...` arms of that same chain; since the arm before
them has the always-true condition `not word_matched`, they are unreachable
and contribute nothing here. -/
def allWordsLoop (content : PyStr) (matched : Nat) : List PyStr → Option Nat
  | [] => some matched
  | w :: ws =>
      let nw := normalize_text w
      if nw.length < 2 then allWordsLoop content matched ws
      else
        let word_matched :=
          containsSub content nw ||
            (pySplitWs content).any (fun cw => nw.isPrefixOf cw)
        if word_matched then allWordsLoop content (matched + 1) ws
        else none

/-- Embeds `VehicleSearchEngine._fuzzy_match_all_words` (src/main.py lines
199-257), the strict per-word policy used for motorcycles.  The threshold
parameter is received as in the source but (like there, through the dead
branches) never influences the result. -/
def fuzzy_match_all_words (query_words : List PyStr) (field_content : PyStr)
    (fuzzy_threshold : Nat) : Bool × PyStr :=
  let _ := fuzzy_threshold
  let normalized_content := normalize_text field_content
  match allWordsLoop normalized_content 0 query_words with
  | none => (false, "moto_strict: palavra nao encontrada".data)
  | some m =>
      if (query_words.filter (fun w => 2 ≤ (normalize_text w).length)).length ≤ m then
        (true, "moto_all_match".data)
      else (false, "moto_strict: nem todas as palavras encontradas".data)

/-- The word loop of `_fuzzy_match_any_word`: the first word that matches by
substring, token-prefix, token-substring (length at least 3) or fuzzy score
(length at least 3) makes the whole match succeed. -/
def anyWordLoop (content : PyStr) (thr : Nat) : List PyStr → Bool × PyStr
  | [] => (false, "no_match".data)
  | w :: ws =>
      let nw := normalize_text w
      if nw.length < 2 then anyWordLoop content thr ws
      else if containsSub content nw then (true, "exact_match".data)
      else if (pySplitWs content).any (fun cw => nw.isPrefixOf cw) then
        (true, "starts_with_match".data)
      else if 3 ≤ nw.length ∧ (pySplitWs content).any (fun cw => containsSub cw nw) then
        (true, "substring_match".data)
      else if 3 ≤ nw.length ∧ fuzzMaxGe content nw thr then (true, "fuzzy_match".data)
      else anyWordLoop content thr ws

/-- Embeds `VehicleSearchEngine._fuzzy_match_any_word` (src/main.py lines
259-293), the permissive per-word policy used for every non-motorcycle. -/
def fuzzy_match_any_word (query_words : List PyStr) (field_content : PyStr)
    (fuzzy_threshold : Nat) : Bool × PyStr :=
  anyWordLoop (normalize_text field_content) fuzzy_threshold query_words

/-- Embeds `VehicleSearchEngine.fuzzy_match` (src/main.py lines 295-308):
threshold 98 and the all-words policy for `vehicle_type == "moto"`, threshold
90 and the any-word policy otherwise. -/
def fuzzy_match (query_words : List PyStr) (field_content : PyStr)
    (vehicle_type : PyStr) : Bool × PyStr :=
  if query_words = [] ∨ field_content = [] then (false, "empty_input".data)
  else
    let fuzzy_threshold := if vehicle_type = "moto".data then 98 else 90
    if vehicle_type = "moto".data then
      fuzzy_match_all_words query_words field_content fuzzy_threshold
    else fuzzy_match_any_word query_words field_content fuzzy_threshold

/-- Embeds `VehicleSearchEngine.model_match` (src/main.py lines 310-324):
exact tier, then fuzzy tier, then failure. -/
def model_match (query_words : List PyStr) (field_content : PyStr)
    (vehicle_type : PyStr) : Bool × PyStr :=
  let exact := exact_match query_words field_content
  if exact.fst then (true, "EXACT".data)
  else
    let fuzzy := fuzzy_match query_words field_content vehicle_type
    if fuzzy.fst then (true, "FUZZY".data)
    else (false, "NO_MATCH".data)

/-- Embeds `VehicleSearchEngine.split_multi_value` (src/main.py lines 345-349):
`[v.strip() for v in str(value).split(',') if v.strip()]` behind the falsy
guard. -/
def split_multi_value (value : PyStr) : List PyStr :=
  if value = [] then []
  else ((splitOnComma value).map pyStrip).filter (· ≠ [])

/-- Embeds `VehicleSearchEngine._any_csv_value_matches` (src/main.py lines
48-60): OR of the word matcher over the comma-separated alternatives. -/
def any_csv_value_matches (raw_val field_val vehicle_type : PyStr)
    (word_matcher : List PyStr → PyStr → PyStr → Bool × PyStr) : Bool :=
  if raw_val = [] then false
  else (split_multi_value raw_val).any
    (fun val => (word_matcher (pySplitWs val) field_val vehicle_type).fst)

/-- A normalized vehicle record: a Python dict with the fixed key set the
engine reads.  `PyVal.none` models a missing key. -/
structure Vehicle where
  id : PyVal := .none
  tipo : PyVal := .none
  marca : PyVal := .none
  modelo : PyVal := .none
  titulo : PyVal := .none
  versao : PyVal := .none
  categoria : PyVal := .none
  cor : PyVal := .none
  combustivel : PyVal := .none
  cambio : PyVal := .none
  motor : PyVal := .none
  portas : PyVal := .none
  opcionais : PyVal := .none
  ano : PyVal := .none
  km : PyVal := .none
  cilindrada : PyVal := .none
  preco : PyVal := .none
deriving DecidableEq, Repr

/-- Dict access `v.get(key)` by field name. -/
def Vehicle.get (v : Vehicle) (key : PyStr) : PyVal :=
  if key = "id".data then v.id
  else if key = "tipo".data then v.tipo
  else if key = "marca".data then v.marca
  else if key = "modelo".data then v.modelo
  else if key = "titulo".data then v.titulo
  else if key = "versao".data then v.versao
  else if key = "categoria".data then v.categoria
  else if key = "cor".data then v.cor
  else if key = "combustivel".data then v.combustivel
  else if key = "cambio".data then v.cambio
  else if key = "motor".data then v.motor
  else if key = "portas".data then v.portas
  else if key = "opcionais".data then v.opcionais
  else if key = "ano".data then v.ano
  else if key = "km".data then v.km
  else if key = "cilindrada".data then v.cilindrada
  else if key = "preco".data then v.preco
  else .none

/-- The filter mapping, as the insertion-ordered association list a Python
dict iterates as. -/
abbrev Filters := List (PyStr × PyStr)

/-- Membership test `key in filters`. -/
def filtersHas (f : Filters) (k : PyStr) : Bool := f.any (fun kv => kv.fst = k)

/-- Lookup `filters[key]`, defaulting to the empty string (callers only use it after
a membership test). -/
def filtersGet (f : Filters) (k : PyStr) : PyStr :=
  ((f.find? (fun kv => kv.fst = k)).map (·.snd)).getD []

/-- The dict comprehension dropping one key. -/
def filtersRemove (f : Filters) (k : PyStr) : Filters := f.filter (fun kv => kv.fst ≠ k)

/-- Assignment `filters[key] = value`: replaces in place if the key exists, appends
otherwise, as Python dict assignment does. -/
def filtersSet (f : Filters) (k v : PyStr) : Filters :=
  if filtersHas f k then f.map (fun kv => if kv.fst = k then (kv.fst, v) else kv)
  else f ++ [(k, v)]

/-- The list `self.exact_fields` (src/main.py line 46). -/
def exact_fields : List PyStr :=
  ["tipo".data, "marca".data, "cambio".data, "motor".data, "portas".data]

/-- Embeds `VehicleSearchEngine.apply_filters` (src/main.py lines 351-387):
a sequential AND over the filter entries; `modelo` is matched by
`model_match` against the three fields modelo/titulo/versao, the four fuzzy
text fields by `fuzzy_match`, the exact-identity fields by tight-normalized
string identity with the comma-separated alternatives; an entry with an empty
value (or an already-empty candidate list) is skipped, and an unknown key
filters nothing. -/
def apply_filters (vehicles : List Vehicle) (filters : Filters) : List Vehicle :=
  filters.foldl
    (fun acc kv =>
      if kv.snd = [] ∨ acc = [] then acc
      else if kv.fst = "modelo".data then
        acc.filter (fun v =>
          ["modelo".data, "titulo".data, "versao".data].any (fun field =>
            any_csv_value_matches kv.snd ((v.get field).getStrD) v.tipo.getStrD model_match))
      else if kv.fst ∈ ["cor".data, "categoria".data, "opcionais".data, "combustivel".data] then
        acc.filter (fun v =>
          any_csv_value_matches kv.snd ((v.get kv.fst).getStrD) v.tipo.getStrD fuzzy_match)
      else if kv.fst ∈ exact_fields then
        acc.filter (fun v =>
          (split_multi_value kv.snd).map normalize_text
            |>.contains (normalize_text ((v.get kv.fst).getStrD)))
      else acc)
    vehicles

/-- Truthiness of an optional query parameter (`if anomax:` in the source):
present and non-empty. -/
def optTruthy (o : Option PyStr) : Bool :=
  match o with
  | some s => s ≠ []
  | none => false

/-- Embeds `VehicleSearchEngine.apply_range_filters` (src/main.py lines
390-438).  `valormax` and `ccmax` are parsed but filter nothing; `anomax` and
`kmmax` are hard ceilings excluding every vehicle whose converted year or km is
`None` or exceeds the parsed ceiling; a ceiling whose own string fails to parse
is silently skipped (`except ValueError: pass`). -/
def apply_range_filters (vehicles : List Vehicle)
    (valormax anomax kmmax ccmax : Option PyStr) : List Vehicle :=
  let fv := vehicles
  let fv :=
    if optTruthy anomax then
      match pyInt? (anomax.getD []) with
      | some max_year =>
          fv.filter (fun v => (convert_year v.ano).any (fun y => decide (y ≤ max_year)))
      | none => fv
    else fv
  let fv :=
    if optTruthy kmmax then
      match pyInt? (kmmax.getD []) with
      | some max_km =>
          fv.filter (fun v => (convert_km v.km).any (fun n => decide (n ≤ max_km)))
      | none => fv
    else fv
  fv

/-- Python `x or y` on an optional float: `None` and the falsy value `0.0`
fall through to the default. -/
def pyOrFloat (o : Option PyFloat) (d : PyFloat) : PyFloat :=
  match o with
  | some x => if x.num = 0 then d else x
  | none => d

/-- Python `x or y` on an optional int. -/
def pyOrInt (o : Option Int) (d : Int) : Int :=
  match o with
  | some n => if n = 0 then d else n
  | none => d

/-- The km sort key `self.convert_km(v.get("km")) or float(inf)`: both a
missing/unparseable km and the falsy value `0` fall through to infinity,
modelled as the top element. -/
def kmInfKey (v : Vehicle) : WithTop Int :=
  match convert_km v.km with
  | some n => if n = 0 then ⊤ else (n : WithTop Int)
  | none => ⊤

/-- The year sort key `self.convert_year(v.get("ano")) or 0`. -/
def yearKey (v : Vehicle) : Int := pyOrInt (convert_year v.ano) 0

/-- The price value `self.convert_price(v.get("preco")) or 0`. -/
def priceKey (v : Vehicle) : PyFloat := pyOrFloat (convert_price v.preco) (.ofInt 0)

/-- The cc value `self.convert_cc(v.get("cilindrada")) or 0`. -/
def ccKey (v : Vehicle) : PyFloat := pyOrFloat (convert_cc v.cilindrada) (.ofInt 0)

/-- Python `sorted(vehicles, key=...)`: a stable ascending sort.  It is
modelled by the Mathlib `List.insertionSort`, which is stable; a stable sort of
a list under a total preorder is unique, so this agrees with the CPython timsort
elementwise. -/
def pySortedBy {α : Type} (le : α → α → Bool) (l : List α) : List α :=
  List.insertionSort (fun a b => le a b = true) l

/-- The `CcMax` proximity target: `float(ccmax)`, multiplied by 1000 when
below 10 (liters heuristic); `none` when ccmax is falsy or fails to parse
(`except ValueError: pass`). -/
def ccTarget (ccmax : Option PyStr) : Option PyFloat :=
  if optTruthy ccmax then
    match pyFloat? (ccmax.getD []) with
    | some t => some (if t.bltInt 10 then t.mulPow10 3 else t)
    | none => none
  else none

/-- The `ValorMax` proximity target: `float(valormax)`, or `none` when falsy
or unparseable. -/
def valTarget (valormax : Option PyStr) : Option PyFloat :=
  if optTruthy valormax then pyFloat? (valormax.getD []) else none

/-- Embeds `VehicleSearchEngine.sort_vehicles` (src/main.py lines 440-477).
Precedence: ccmax proximity, then valormax proximity, then km ascending (with
`or float(inf)`), then year descending (with `or 0`), then price descending
(with `or 0`).  The descending sorts are modelled by the flipped comparator,
which preserves the stable tie behaviour of `sorted(reverse=True)`. -/
def sort_vehicles (vehicles : List Vehicle)
    (valormax anomax kmmax ccmax : Option PyStr) : List Vehicle :=
  if vehicles = [] then vehicles
  else
    match ccTarget ccmax with
    | some target_cc =>
        pySortedBy (fun a b =>
          (((ccKey a).sub target_cc).fabs).ble (((ccKey b).sub target_cc).fabs)) vehicles
    | none =>
    match valTarget valormax with
    | some target_price =>
        pySortedBy (fun a b =>
          (((priceKey a).sub target_price).fabs).ble (((priceKey b).sub target_price).fabs))
          vehicles
    | none =>
    if optTruthy kmmax then
      pySortedBy (fun a b => decide (kmInfKey a ≤ kmInfKey b)) vehicles
    else if optTruthy anomax then
      pySortedBy (fun a b => decide (yearKey b ≤ yearKey a)) vehicles
    else pySortedBy (fun a b => (priceKey b).ble (priceKey a)) vehicles

/-- The static lookup tables imported from vehicle_mappings.py.
Modelled from the spec: vehicle_mappings.py is not under src/; the spec
describes the tables only as static mappings from normalized model-name
fragments to a category (and, for motorcycles, a displacement), so the engine
is parameterized over their unknown contents, as insertion-ordered association
lists mirroring dict iteration. -/
structure FallbackTables where
  motos : List (PyStr × (PyStr × PyStr))
  categorias : List (PyStr × PyStr)

/-- The empty pair of tables (used by concrete evaluations that never reach
the model-to-category step). -/
def noTables : FallbackTables := ⟨[], []⟩

/-- Python dict lookup on an association-list model. -/
def lookupA {β : Type} (tbl : List (PyStr × β)) (k : PyStr) : Option β :=
  (tbl.find? (fun kv => kv.fst = k)).map (·.snd)

/-- Embeds `VehicleSearchEngine.find_category_by_model` (src/main.py lines
139-179) over the modelled tables: exact lookup in motos, then per-word lookup
(words of length at least 3), then substring scan of motos, then the same three
stages over the car table. -/
def find_category_by_model (T : FallbackTables) (model : PyStr) : Option PyStr :=
  if model = [] then none
  else
    let normalized_model := normalize_text model
    match lookupA T.motos normalized_model with
    | some cc => some cc.snd
    | none =>
    let model_words := pySplitWs normalized_model
    match model_words.findSome? (fun word =>
        if 3 ≤ word.length then (lookupA T.motos word).map (·.snd) else none) with
    | some c => some c
    | none =>
    match T.motos.findSome? (fun kv =>
        if containsSub normalized_model kv.fst || containsSub kv.fst normalized_model then
          some kv.snd.snd
        else none) with
    | some c => some c
    | none =>
    match lookupA T.categorias normalized_model with
    | some c => some c
    | none =>
    match model_words.findSome? (fun word =>
        if 3 ≤ word.length then lookupA T.categorias word else none) with
    | some c => some c
    | none =>
    T.categorias.findSome? (fun kv =>
        if containsSub normalized_model kv.fst || containsSub kv.fst normalized_model then
          some kv.snd
        else none)

/-- The priority list FALLBACK_PRIORITY (src/main.py lines 20-32), least important first; the
comment on the last entry reads "Mais importante (nunca remove sozinho)". -/
def FALLBACK_PRIORITY : List PyStr :=
  ["motor".data, "portas".data, "cor".data, "combustivel".data, "opcionais".data,
   "cambio".data, "KmMax".data, "AnoMax".data, "modelo".data, "marca".data,
   "categoria".data]

/-- The `SearchResult` dataclass (src/main.py lines 34-40); `fallback_info` is
`none` for the empty dict and `some removed` for
`{"fallback": {"removed_filters": removed}}`. -/
structure SearchResult where
  vehicles : List Vehicle
  total_found : Nat
  fallback_info : Option (List PyStr)
  removed_filters : List PyStr
deriving DecidableEq, Repr

/-- The exclusion pass `if excluded_ids: ... str(v.get("id")) not in excluded_ids`
(note: `str()` of a missing id is "None"). -/
def excludeIds (excluded : List PyStr) (l : List Vehicle) : List Vehicle :=
  if excluded ≠ [] then l.filter (fun v => ¬ excluded.contains v.id.toStr) else l

/-- One filtered-and-excluded pass: `apply_filters`, `apply_range_filters`,
then the id exclusion - the block the source repeats before every return. -/
def runQuery (vehicles : List Vehicle) (filters : Filters)
    (vm am km cm : Option PyStr) (excluded : List PyStr) : List Vehicle :=
  excludeIds excluded (apply_range_filters (apply_filters vehicles filters) vm am km cm)

/-- Build the `SearchResult` the source returns on success: ranked vehicles
truncated to 6, the pre-truncation count, and the fallback log. -/
def mkResult (filtered : List Vehicle) (vm am km cm : Option PyStr)
    (info : Option (List PyStr)) (removed : List PyStr) : SearchResult :=
  { vehicles := (sort_vehicles filtered vm am km cm).take 6
  , total_found := filtered.length
  , fallback_info := info
  , removed_filters := removed }

/-- The shared "re-test after a relaxation" block of the fallback loop (the
code the source repeats after every removal): one filtered pass under the
updated constraints; on success the ranked result carrying the updated log
`removed2` is returned, otherwise the loop continues with `k`. -/
def retestOr (vehicles : List Vehicle) (excluded : List PyStr)
    (vm cm : Option PyStr) (cf2 : Filters) (removed2 : List PyStr)
    (am2 km2 : Option PyStr) (k : Except Unit SearchResult) :
    Except Unit SearchResult :=
  if runQuery vehicles cf2 vm am2 km2 cm excluded ≠ [] then
    .ok (mkResult (runQuery vehicles cf2 vm am2 km2 cm excluded) vm am2 km2 cm
      (some removed2) removed2)
  else k

/-- The fallback loop of `search_with_fallback` (src/main.py lines 511-606).

State per iteration: the remaining priority entries, the active named filters,
the accumulated removed-filter log, and the still-active anomax/kmmax ceilings
(valormax and ccmax are never relaxed and stay fixed).

The `KmMax`/`AnoMax` steps re-run `apply_filters` and keep the ceiling
(`continue`) when some vehicle still satisfies it, ignoring both the exclusion
set and the other ceiling; `int(current_kmmax)` there is outside any
`try/except` and is evaluated once per test vehicle whose km converts, so a
malformed ceiling raises `ValueError` (modelled as `Except.error ()`) exactly
when such a vehicle exists.

In the mapped `modelo -> categoria` branch the source re-tests the new filter
set and returns on success, then falls through to the shared re-test with the
same inputs; the two consecutive identical tests are modelled by one. -/
def fallbackLoop (T : FallbackTables) (vehicles : List Vehicle)
    (excluded : List PyStr) (vm cm : Option PyStr) :
    List PyStr → Filters → List PyStr → Option PyStr → Option PyStr →
    Except Unit SearchResult
  | [], _, removed, _, _ => .ok ⟨[], 0, none, removed⟩
  | step :: rest, cf, removed, am, km =>
    if step = "KmMax".data ∧ optTruthy km then
      match pyInt? (km.getD []) with
      | none =>
          if (apply_filters vehicles cf).any (fun v => (convert_km v.km).isSome) then
            .error ()
          else retestOr vehicles excluded vm cm cf (removed ++ ["KmMax".data]) am none
            (fallbackLoop T vehicles excluded vm cm rest cf (removed ++ ["KmMax".data]) am none)
      | some max_km =>
          if (apply_filters vehicles cf).filter
              (fun v => (convert_km v.km).any (fun n => decide (n ≤ max_km))) = [] then
            retestOr vehicles excluded vm cm cf (removed ++ ["KmMax".data]) am none
              (fallbackLoop T vehicles excluded vm cm rest cf (removed ++ ["KmMax".data]) am none)
          else fallbackLoop T vehicles excluded vm cm rest cf removed am km
    else if step = "AnoMax".data ∧ optTruthy am then
      match pyInt? (am.getD []) with
      | none =>
          if (apply_filters vehicles cf).any (fun v => (convert_year v.ano).isSome) then
            .error ()
          else retestOr vehicles excluded vm cm cf (removed ++ ["AnoMax".data]) none km
            (fallbackLoop T vehicles excluded vm cm rest cf (removed ++ ["AnoMax".data]) none km)
      | some max_year =>
          if (apply_filters vehicles cf).filter
              (fun v => (convert_year v.ano).any (fun y => decide (y ≤ max_year))) = [] then
            retestOr vehicles excluded vm cm cf (removed ++ ["AnoMax".data]) none km
              (fallbackLoop T vehicles excluded vm cm rest cf (removed ++ ["AnoMax".data]) none km)
          else fallbackLoop T vehicles excluded vm cm rest cf removed am km
    else if step = "modelo".data ∧ filtersHas cf "modelo".data then
      if ¬ filtersHas cf "categoria".data ∨ filtersGet cf "categoria".data = [] then
        match find_category_by_model T (filtersGet cf "modelo".data) with
        | some mapped =>
            retestOr vehicles excluded vm cm
              (filtersSet (filtersRemove cf "modelo".data) "categoria".data mapped)
              (removed ++
                ["modelo(".data ++ filtersGet cf "modelo".data ++ ")->categoria(".data ++
                  mapped ++ ")".data])
              am km
              (fallbackLoop T vehicles excluded vm cm rest
                (filtersSet (filtersRemove cf "modelo".data) "categoria".data mapped)
                (removed ++
                  ["modelo(".data ++ filtersGet cf "modelo".data ++ ")->categoria(".data ++
                    mapped ++ ")".data])
                am km)
        | none =>
            retestOr vehicles excluded vm cm (filtersRemove cf "modelo".data)
              (removed ++ ["modelo(".data ++ filtersGet cf "modelo".data ++ ")".data]) am km
              (fallbackLoop T vehicles excluded vm cm rest (filtersRemove cf "modelo".data)
                (removed ++ ["modelo(".data ++ filtersGet cf "modelo".data ++ ")".data]) am km)
      else
        retestOr vehicles excluded vm cm (filtersRemove cf "modelo".data)
          (removed ++ ["modelo(".data ++ filtersGet cf "modelo".data ++ ")".data]) am km
          (fallbackLoop T vehicles excluded vm cm rest (filtersRemove cf "modelo".data)
            (removed ++ ["modelo(".data ++ filtersGet cf "modelo".data ++ ")".data]) am km)
    else if filtersHas cf step then
      retestOr vehicles excluded vm cm (filtersRemove cf step) (removed ++ [step]) am km
        (fallbackLoop T vehicles excluded vm cm rest (filtersRemove cf step)
          (removed ++ [step]) am km)
    else fallbackLoop T vehicles excluded vm cm rest cf removed am km

/-- Embeds `VehicleSearchEngine.search_with_fallback` (src/main.py lines
479-606): the initial filtered attempt, returned when non-empty with an empty
fallback log, else the relaxation loop over `FALLBACK_PRIORITY`. -/
def search_with_fallback (T : FallbackTables) (vehicles : List Vehicle)
    (filters : Filters) (valormax anomax kmmax ccmax : Option PyStr)
    (excluded_ids : List PyStr) : Except Unit SearchResult :=
  if runQuery vehicles filters valormax anomax kmmax ccmax excluded_ids ≠ [] then
    .ok (mkResult (runQuery vehicles filters valormax anomax kmmax ccmax excluded_ids)
      valormax anomax kmmax ccmax none [])
  else
    fallbackLoop T vehicles excluded_ids valormax ccmax FALLBACK_PRIORITY filters [] anomax kmmax

deriving instance DecidableEq for Except

/-! ## Properties of the text normalizers (claim C8) -/

theorem charOfNat_toNat {n : Nat} (h : n < 55296) : (Char.ofNat n).toNat = n := by
  simp [Char.ofNat, Nat.isValidChar, h, Char.ofNatAux, Char.toNat, UInt32.toNat,
    BitVec.toNat_ofNatLt]

theorem toLower_eq_of_upper {c : Char} (h : 65 ≤ c.toNat ∧ c.toNat ≤ 90) :
    Char.toLower c = Char.ofNat (c.toNat + 32) := by
  simp only [Char.toLower, ge_iff_le]
  rw [if_pos h]

theorem toLower_eq_of_not_upper {c : Char} (h : ¬(65 ≤ c.toNat ∧ c.toNat ≤ 90)) :
    Char.toLower c = c := by
  simp only [Char.toLower, ge_iff_le]
  rw [if_neg h]

theorem toLower_idem (c : Char) : Char.toLower (Char.toLower c) = Char.toLower c := by
  by_cases h : 65 ≤ c.toNat ∧ c.toNat ≤ 90
  · rw [toLower_eq_of_upper h,
      toLower_eq_of_not_upper (by rw [charOfNat_toNat (by omega)]; omega)]
  · rw [toLower_eq_of_not_upper h, toLower_eq_of_not_upper h]

theorem toLower_ascii {c : Char} (h : c.toNat < 128) : (Char.toLower c).toNat < 128 := by
  by_cases hc : 65 ≤ c.toNat ∧ c.toNat ≤ 90
  · rw [toLower_eq_of_upper hc, charOfNat_toNat (by omega)]; omega
  · rw [toLower_eq_of_not_upper hc]; exact h

theorem dropWhile_idem (p : Char → Bool) (l : PyStr) :
    (l.dropWhile p).dropWhile p = l.dropWhile p := by
  induction l with
  | nil => simp
  | cons c t ih =>
      by_cases h : p c <;> simp [List.dropWhile_cons, h, ih]

theorem prefix_dropWhile_eq_self {p : Char → Bool} {w x : PyStr}
    (hw : w <+: x) (hx : x.dropWhile p = x) : w.dropWhile p = w := by
  cases w with
  | nil => simp
  | cons c t =>
      obtain ⟨s, hs⟩ := hw
      subst hs
      rw [List.dropWhile_eq_self_iff] at hx ⊢
      intro hl
      have h := hx (by simp)
      simpa using h

theorem trimEnd_isPrefix (l : PyStr) : trimEnd l <+: l := by
  unfold trimEnd
  have h : (l.reverse.dropWhile pyIsWs).reverse <+: l.reverse.reverse :=
    List.reverse_prefix.mpr (List.dropWhile_suffix pyIsWs)
  simpa using h

theorem trimEnd_idem (l : PyStr) : trimEnd (trimEnd l) = trimEnd l := by
  simp [trimEnd, List.reverse_reverse, dropWhile_idem]

theorem pyStrip_idem (l : PyStr) : pyStrip (pyStrip l) = pyStrip l := by
  unfold pyStrip
  rw [prefix_dropWhile_eq_self (trimEnd_isPrefix _) (dropWhile_idem _ _), trimEnd_idem]

theorem pyStrip_isInfix (l : PyStr) : pyStrip l <:+: l :=
  (trimEnd_isPrefix _).isInfix.trans (List.dropWhile_suffix pyIsWs).isInfix

theorem mem_pyStrip {l : PyStr} {c : Char} (hc : c ∈ pyStrip l) : c ∈ l :=
  (pyStrip_isInfix l).sublist.mem hc

theorem accentTable_ascii : ∀ kv ∈ accentTable, kv.snd.toNat < 128 := by decide

theorem unidecodeChar_ascii {c d : Char} (hd : d ∈ unidecodeChar c) : d.toNat < 128 := by
  unfold unidecodeChar at hd
  by_cases h : c.toNat < 128
  · rw [if_pos h, List.mem_singleton] at hd
    subst hd
    exact h
  · rw [if_neg h] at hd
    cases hfind : accentTable.find? (fun kv => kv.fst = c) with
    | none => rw [hfind] at hd; exact absurd hd (List.not_mem_nil d)
    | some kv =>
        rw [hfind, List.mem_singleton] at hd
        subst hd
        exact accentTable_ascii kv (List.mem_of_find?_eq_some hfind)

theorem unidecodeChar_of_ascii {c : Char} (h : c.toNat < 128) : unidecodeChar c = [c] := by
  unfold unidecodeChar
  rw [if_pos h]

theorem mem_unidecodeStr_ascii {l : PyStr} {d : Char} (hd : d ∈ unidecodeStr l) :
    d.toNat < 128 := by
  obtain ⟨c, -, hc⟩ := List.mem_flatMap.mp hd
  exact unidecodeChar_ascii hc

theorem unidecodeStr_fixed {l : PyStr} (h : ∀ c ∈ l, c.toNat < 128) :
    unidecodeStr l = l := by
  induction l with
  | nil => rfl
  | cons c t ih =>
      have hc := h c (by simp)
      simp only [unidecodeStr, List.flatMap_cons] at *
      rw [unidecodeChar_of_ascii hc, ih (fun d hd => h d (by simp [hd]))]
      rfl

theorem pyLower_fixed {l : PyStr} (h : ∀ c ∈ l, Char.toLower c = c) : pyLower l = l := by
  induction l with
  | nil => rfl
  | cons c t ih =>
      simp only [pyLower, List.map_cons] at *
      rw [h c (by simp), ih (fun d hd => h d (by simp [hd]))]

theorem mem_normalize_text {t : PyStr} {c : Char} (hc : c ∈ normalize_text t) :
    c.toNat < 128 ∧ Char.toLower c = c ∧ c ≠ '-' ∧ c ≠ ' ' := by
  unfold normalize_text at hc
  by_cases h0 : t = []
  · simp [h0] at hc
  · rw [if_neg h0] at hc
    have h1 : c ∈ (pyLower (unidecodeStr t)).filter (· ≠ '-') ∧ c ≠ ' ' := by
      have := mem_pyStrip hc
      simpa using List.mem_filter.mp this
    have h2 : c ∈ pyLower (unidecodeStr t) ∧ c ≠ '-' := by
      simpa using List.mem_filter.mp h1.1
    obtain ⟨d, hd, hcd⟩ := List.mem_map.mp h2.1
    subst hcd
    exact ⟨toLower_ascii (mem_unidecodeStr_ascii hd), toLower_idem d, h2.2, h1.2⟩

theorem normalize_text_idem (t : PyStr) :
    normalize_text (normalize_text t) = normalize_text t := by
  by_cases h0 : t = []
  · simp [h0, normalize_text]
  by_cases hy : normalize_text t = []
  · rw [hy]; rfl
  have huni : unidecodeStr (normalize_text t) = normalize_text t :=
    unidecodeStr_fixed (fun c hc => (mem_normalize_text hc).1)
  have hlow : pyLower (normalize_text t) = normalize_text t :=
    pyLower_fixed (fun c hc => (mem_normalize_text hc).2.1)
  have hf1 : (normalize_text t).filter (· ≠ '-') = normalize_text t :=
    List.filter_eq_self.mpr (fun c hc => by simpa using (mem_normalize_text hc).2.2.1)
  have hf2 : (normalize_text t).filter (· ≠ ' ') = normalize_text t :=
    List.filter_eq_self.mpr (fun c hc => by simpa using (mem_normalize_text hc).2.2.2)
  have hstrip : pyStrip (normalize_text t) = normalize_text t := by
    conv_lhs => rw [normalize_text, if_neg h0]
    conv_rhs => rw [normalize_text, if_neg h0]
    exact pyStrip_idem _
  conv_lhs => rw [normalize_text, if_neg hy, huni, hlow, hf1, hf2, hstrip]

theorem mem_collapseWs {l : PyStr} {c : Char} (hc : c ∈ collapseWs l) :
    c = ' ' ∨ c ∈ l := by
  induction l using collapseWs.induct with
  | case1 => simp [collapseWs] at hc
  | case2 d hd =>
      rw [collapseWs, if_pos hd, List.mem_singleton] at hc
      exact Or.inl hc
  | case3 d hd =>
      rw [collapseWs, if_neg hd, List.mem_singleton] at hc
      exact Or.inr (by simp [hc])
  | case4 a d rest h ih =>
      rw [collapseWs, if_pos h] at hc
      rcases ih hc with h1 | h1
      · exact Or.inl h1
      · exact Or.inr (List.mem_cons_of_mem a h1)
  | case5 a d rest h ih =>
      rw [collapseWs, if_neg h] at hc
      rcases List.mem_cons.mp hc with h1 | h1
      · by_cases ha : pyIsWs a
        · rw [if_pos ha] at h1; exact Or.inl h1
        · rw [if_neg ha] at h1; exact Or.inr (by simp [h1])
      · rcases ih h1 with h2 | h2
        · exact Or.inl h2
        · exact Or.inr (List.mem_cons_of_mem a h2)

theorem collapseWs_ws_eq_space {l : PyStr} {c : Char} (hc : c ∈ collapseWs l)
    (hw : pyIsWs c = true) : c = ' ' := by
  induction l using collapseWs.induct with
  | case1 => simp [collapseWs] at hc
  | case2 d hd => rw [collapseWs, if_pos hd, List.mem_singleton] at hc; exact hc
  | case3 d hd =>
      rw [collapseWs, if_neg hd, List.mem_singleton] at hc
      subst hc
      exact absurd hw hd
  | case4 a d rest h ih => rw [collapseWs, if_pos h] at hc; exact ih hc
  | case5 a d rest h ih =>
      rw [collapseWs, if_neg h] at hc
      rcases List.mem_cons.mp hc with h1 | h1
      · by_cases ha : pyIsWs a
        · rw [if_pos ha] at h1; exact h1
        · rw [if_neg ha] at h1; subst h1; exact absurd hw ha
      · exact ih h1

theorem collapseWs_head {d : Char} (rest : PyStr) (h : ¬ pyIsWs d = true) :
    ∃ t, collapseWs (d :: rest) = d :: t := by
  cases rest with
  | nil => exact ⟨[], by rw [collapseWs, if_neg h]⟩
  | cons e rest' =>
      refine ⟨collapseWs (e :: rest'), ?_⟩
      rw [collapseWs, if_neg (by simp [h]), if_neg h]

theorem collapseWs_chain (l : PyStr) :
    List.Chain' (fun a b => ¬(pyIsWs a = true ∧ pyIsWs b = true)) (collapseWs l) := by
  induction l using collapseWs.induct with
  | case1 => simp [collapseWs]
  | case2 d hd => rw [collapseWs, if_pos hd]; simp
  | case3 d hd => rw [collapseWs, if_neg hd]; simp
  | case4 a d rest h ih => rw [collapseWs, if_pos h]; exact ih
  | case5 a d rest h ih =>
      rw [collapseWs, if_neg h]
      rw [List.chain'_cons']
      refine ⟨?_, ih⟩
      intro y hy
      by_cases ha : pyIsWs a
      · have hd : ¬ pyIsWs d = true := by
          intro hd
          exact h (by simp [ha, hd])
        obtain ⟨t, ht⟩ := collapseWs_head rest hd
        rw [ht] at hy
        simp at hy
        subst hy
        intro hcon
        exact hd hcon.2
      · intro hcon
        rw [if_neg ha] at hcon
        exact ha hcon.1

theorem collapseWs_eq_self {l : PyStr}
    (h1 : List.Chain' (fun a b => ¬(pyIsWs a = true ∧ pyIsWs b = true)) l)
    (h2 : ∀ c ∈ l, pyIsWs c = true → c = ' ') : collapseWs l = l := by
  induction l using collapseWs.induct with
  | case1 => rfl
  | case2 d hd => rw [collapseWs, if_pos hd, h2 d (by simp) hd]
  | case3 d hd => rw [collapseWs, if_neg hd]
  | case4 a d rest h ih =>
      rw [List.chain'_cons] at h1
      rw [Bool.and_eq_true] at h
      exact absurd ⟨h.1, h.2⟩ h1.1
  | case5 a d rest h ih =>
      rw [collapseWs, if_neg h]
      rw [List.chain'_cons] at h1
      have hrest : collapseWs (d :: rest) = d :: rest :=
        ih h1.2 (fun c hc hw => h2 c (List.mem_cons_of_mem a hc) hw)
      rw [hrest]
      by_cases ha : pyIsWs a
      · rw [if_pos ha, h2 a (by simp) ha]
      · rw [if_neg ha]

theorem pyIsWs_cases {c : Char} (h : pyIsWs c = true) :
    c = ' ' ∨ c = '\t' ∨ c = '\n' ∨ c = '\r' ∨ c = '\x0b' ∨ c = '\x0c' := by
  unfold pyIsWs at h
  simp only [Bool.or_eq_true, decide_eq_true_eq] at h
  tauto

theorem keepLoose_split {c : Char} (h : keepLoose c = true) :
    (('a' ≤ c ∧ c ≤ 'z') ∨ ('0' ≤ c ∧ c ≤ '9')) ∨ pyIsWs c = true := by
  unfold keepLoose at h
  simp only [Bool.or_eq_true, Bool.and_eq_true, decide_eq_true_eq] at h
  tauto

theorem keepLoose_stable {c : Char} (h : keepLoose c = true) :
    c.toNat < 128 ∧ Char.toLower c = c := by
  rcases keepLoose_split h with (⟨h1, h2⟩ | ⟨h1, h2⟩) | h1
  · have ha : 97 ≤ c.toNat := h1
    have hb : c.toNat ≤ 122 := h2
    exact ⟨by omega, toLower_eq_of_not_upper (by omega)⟩
  · have ha : 48 ≤ c.toNat := h1
    have hb : c.toNat ≤ 57 := h2
    exact ⟨by omega, toLower_eq_of_not_upper (by omega)⟩
  · rcases pyIsWs_cases h1 with h | h | h | h | h | h <;> subst h <;>
      exact ⟨by decide, by decide⟩

theorem mem_normalizar_texto {t : PyStr} {c : Char} (hc : c ∈ normalizar_texto t) :
    c.toNat < 128 ∧ Char.toLower c = c ∧ keepLoose c = true ∧
      (pyIsWs c = true → c = ' ') := by
  unfold normalizar_texto at hc
  by_cases h0 : t = []
  · simp [h0] at hc
  rw [if_neg h0] at hc
  have hcol : c ∈ collapseWs ((pyLower (unidecodeStr t)).filter keepLoose) :=
    mem_pyStrip hc
  have hws : pyIsWs c = true → c = ' ' := collapseWs_ws_eq_space hcol
  rcases mem_collapseWs hcol with hsp | hmem
  · subst hsp
    exact ⟨by decide, by decide, by decide, fun _ => rfl⟩
  · have h1 := List.mem_filter.mp hmem
    obtain ⟨d, hd, hcd⟩ := List.mem_map.mp h1.1
    have hk := h1.2
    obtain ⟨hascii, hfix⟩ := keepLoose_stable hk
    exact ⟨hascii, by rw [← hcd] at *; exact toLower_idem d, hk, hws⟩

theorem normalizar_texto_idem (t : PyStr) :
    normalizar_texto (normalizar_texto t) = normalizar_texto t := by
  by_cases h0 : t = []
  · simp [h0, normalizar_texto]
  by_cases hy : normalizar_texto t = []
  · rw [hy]; rfl
  have huni : unidecodeStr (normalizar_texto t) = normalizar_texto t :=
    unidecodeStr_fixed (fun c hc => (mem_normalizar_texto hc).1)
  have hlow : pyLower (normalizar_texto t) = normalizar_texto t :=
    pyLower_fixed (fun c hc => (mem_normalizar_texto hc).2.1)
  have hfil : (normalizar_texto t).filter keepLoose = normalizar_texto t :=
    List.filter_eq_self.mpr (fun c hc => (mem_normalizar_texto hc).2.2.1)
  have hchain : List.Chain' (fun a b => ¬(pyIsWs a = true ∧ pyIsWs b = true))
      (normalizar_texto t) := by
    have hbig : List.Chain' (fun a b => ¬(pyIsWs a = true ∧ pyIsWs b = true))
        (collapseWs ((pyLower (unidecodeStr t)).filter keepLoose)) := collapseWs_chain _
    have hinf : normalizar_texto t <:+:
        collapseWs ((pyLower (unidecodeStr t)).filter keepLoose) := by
      conv_lhs => rw [normalizar_texto, if_neg h0]
      exact pyStrip_isInfix _
    exact List.Chain'.infix hbig hinf
  have hcol : collapseWs (normalizar_texto t) = normalizar_texto t :=
    collapseWs_eq_self hchain (fun c hc hw => (mem_normalizar_texto hc).2.2.2 hw)
  have hstrip : pyStrip (normalizar_texto t) = normalizar_texto t := by
    conv_lhs => rw [normalizar_texto, if_neg h0]
    conv_rhs => rw [normalizar_texto, if_neg h0]
    exact pyStrip_idem _
  conv_lhs => rw [normalizar_texto, if_neg hy, huni, hlow, hfil, hcol, hstrip]

/-! ## Value bridge and sorting lemmas -/

theorem PyFloat.toRat_le_iff {a b : PyFloat} :
    a.toRat ≤ b.toRat ↔ a.num * 10 ^ b.exp ≤ b.num * 10 ^ a.exp := by
  unfold PyFloat.toRat
  rw [div_le_div_iff₀ (by positivity) (by positivity)]
  constructor <;> intro h <;> exact_mod_cast h

theorem PyFloat.ble_iff {a b : PyFloat} : a.ble b = true ↔ a.toRat ≤ b.toRat := by
  rw [PyFloat.ble, decide_eq_true_eq, PyFloat.toRat_le_iff]

theorem PyFloat.toRat_sub (a b : PyFloat) : (a.sub b).toRat = a.toRat - b.toRat := by
  unfold PyFloat.sub PyFloat.toRat
  have h1 : ((10 : ℚ) ^ a.exp) ≠ 0 := by positivity
  have h2 : ((10 : ℚ) ^ b.exp) ≠ 0 := by positivity
  field_simp
  ring

theorem PyFloat.toRat_fabs (a : PyFloat) : a.fabs.toRat = |a.toRat| := by
  unfold PyFloat.fabs PyFloat.toRat
  rw [abs_div, abs_of_pos (a := (10 : ℚ) ^ a.exp) (by positivity)]
  push_cast
  rfl

theorem pySortedBy_perm {α : Type} (le : α → α → Bool) (l : List α) :
    List.Perm (pySortedBy le l) l :=
  List.perm_insertionSort _ l

theorem pySortedBy_pairwise {α : Type} (le : α → α → Bool)
    (htot : ∀ a b, le a b = true ∨ le b a = true)
    (htrans : ∀ a b c, le a b = true → le b c = true → le a c = true)
    (l : List α) : (pySortedBy le l).Pairwise (fun a b => le a b = true) := by
  letI : IsTotal α (fun a b => le a b = true) := ⟨htot⟩
  letI : IsTrans α (fun a b => le a b = true) := ⟨htrans⟩
  exact List.sorted_insertionSort _ l

theorem proximity_ble_total (t : PyFloat) (k : Vehicle → PyFloat) :
    ∀ a b : Vehicle, ((k a).sub t).fabs.ble ((k b).sub t).fabs = true ∨
      ((k b).sub t).fabs.ble ((k a).sub t).fabs = true := by
  intro a b
  rw [PyFloat.ble_iff, PyFloat.ble_iff]
  exact le_total _ _

theorem proximity_ble_trans (t : PyFloat) (k : Vehicle → PyFloat) :
    ∀ a b c : Vehicle, ((k a).sub t).fabs.ble ((k b).sub t).fabs = true →
      ((k b).sub t).fabs.ble ((k c).sub t).fabs = true →
      ((k a).sub t).fabs.ble ((k c).sub t).fabs = true := by
  intro a b c h1 h2
  rw [PyFloat.ble_iff] at *
  exact le_trans h1 h2

/-! ## Claims -/

/-- C8: Text normalization is idempotent and total for both variants, the
tight `normalize_text` of main.py and the loose `normalizar_texto` of
xml_fetcher.py: for every string, normalizing twice equals normalizing once,
and falsy input (None or the empty string, which hit the same guard) yields
the empty string rather than an error. -/
theorem c8_normalization_idempotent_total :
    (∀ x : PyStr, normalize_text (normalize_text x) = normalize_text x) ∧
    (∀ x : PyStr, normalizar_texto (normalizar_texto x) = normalizar_texto x) ∧
    normalize_text [] = [] ∧ normalizar_texto [] = [] :=
  ⟨normalize_text_idem, normalizar_texto_idem, rfl, rfl⟩

/-- C5 counterexample: the claim asserts `convert_price(0) = 0.0`, but the
falsy guard `if not price_str` maps the integer 0 to `None`. -/
theorem c5_counterexample :
    convert_price (PyVal.int 0) = none ∧
      convert_price (PyVal.int 0) ≠ some (PyFloat.ofInt 0) := by
  exact ⟨rfl, by decide⟩

/-- C5 (amended): all four field converters are total functions (their
embeddings return `Option` values for every input, mirroring the try/except of the source, so no exception escapes); absent input yields null; but every
falsy input - the numbers 0 and 0.0 and the empty string, not only `None` -
also yields null, so the valid value zero IS conflated with unknown:
`convert_price(0)`, `convert_year(0)` and `convert_km(0)` are all null.
Non-falsy values convert normally. -/
theorem c5_amended_converters :
    convert_price PyVal.none = none ∧ convert_year PyVal.none = none ∧
    convert_km PyVal.none = none ∧ convert_cc PyVal.none = none ∧
    convert_price (PyVal.int 0) = none ∧ convert_price (PyVal.float (PyFloat.ofInt 0)) = none ∧
    convert_price (PyVal.str []) = none ∧
    convert_year (PyVal.int 0) = none ∧ convert_km (PyVal.int 0) = none ∧
    convert_cc (PyVal.int 0) = none ∧
    convert_price (PyVal.int 150) = some ⟨150, 0⟩ ∧
    convert_price (PyVal.str "150".data) = some ⟨150, 2⟩ ∧
    convert_year (PyVal.str " 2020 ".data) = some 2020 ∧
    convert_km (PyVal.str "1.000".data) = some 1000 ∧
    convert_cc (PyVal.str "1,6".data) = some ⟨16000, 1⟩ := by
  decide

theorem exactLoop_all_short {content : PyStr} {words : List PyStr}
    (h : ∀ w ∈ words, (normalize_text w).length < 2) :
    exactLoop content words =
      (true, "exact_match: todas as palavras encontradas".data) := by
  induction words with
  | nil => rfl
  | cons w ws ih =>
      simp only [exactLoop]
      rw [if_pos (h w (by simp))]
      exact ih (fun x hx => h x (by simp [hx]))

/-- C10: `exact_match` skips every query word whose normalized form is shorter
than 2 characters: for a non-empty word list all of whose words normalize to
length < 2 and a non-empty field, `exact_match` returns true, and therefore
`model_match` (the three-level search used by the modelo filter) passes the
vehicle whatever its type. -/
theorem c10_short_words_pass (words : List PyStr) (field vt : PyStr)
    (hw : words ≠ []) (hf : field ≠ [])
    (hshort : ∀ w ∈ words, (normalize_text w).length < 2) :
    exact_match words field =
      (true, "exact_match: todas as palavras encontradas".data) ∧
    (model_match words field vt).fst = true := by
  have he : exact_match words field =
      (true, "exact_match: todas as palavras encontradas".data) := by
    unfold exact_match
    rw [if_neg (by simp [hw, hf])]
    exact exactLoop_all_short hshort
  refine ⟨he, ?_⟩
  unfold model_match
  rw [he]
  simp

/-- Witness for C10 at words = ["a"], field = "x", vehicle type "carro". -/
theorem c10_witness :
    exact_match ["a".data] "x".data =
      (true, "exact_match: todas as palavras encontradas".data) ∧
    (model_match ["a".data] "x".data "carro".data).fst = true :=
  c10_short_words_pass ["a".data] "x".data "carro".data (by decide) (by decide)
    (by decide)

/-- The single-vehicle inventory of the C1 failing input: a Hatch that does
not match the categoria filter "SUV". -/
def hatchVehicle : Vehicle :=
  { id := .str "1".data, tipo := .str "carro".data, modelo := .str "Onix".data,
    categoria := .str "Hatch".data, preco := .int 50000, ano := .str "2020".data }

/-- C1 (code evaluation at the failing input): with `categoria` as the only
filter and no matching vehicle, the fallback loop removes `categoria` in its
generic branch and returns the unfiltered inventory - "categoria" appears in
`removed_filters` and `total_found` is 1, while the claim (and the comment of the
source on FALLBACK_PRIORITY, "nunca remove sozinho") requires an empty
result with total_found = 0 and `categoria` never removed. -/
theorem c1_categoria_removed_eval :
    search_with_fallback noTables [hatchVehicle] [("categoria".data, "SUV".data)]
      none none none none [] =
    .ok { vehicles := [hatchVehicle], total_found := 1,
          fallback_info := some ["categoria".data],
          removed_filters := ["categoria".data] } := by
  decide

/-- The C2 failing input: a 100-character query word at indel similarity 99
to the 100-character field (one substitution), which is neither a substring
nor a token prefix of it. -/
def motoWord : PyStr := List.replicate 99 'a' ++ ['b']

/-- The C2 field content. -/
def motoField : PyStr := List.replicate 100 'a'

set_option maxRecDepth 10000 in
/-- C2 (code evaluation at the failing input): for vehicle kind "moto" the
fuzzy tier rejects a word whose similarity to the field is 99 (≥ the moto
threshold 98, as witnessed here by the embedded ratio comparison), because the
substring-of-token and similarity branches of `_fuzzy_match_all_words` are
unreachable `elif` arms; the claim says a word matchable via the
similarity-≥-98 route still counts as matched. -/
theorem c2_moto_fuzzy_eval :
    (fuzzy_match [motoWord] motoField "moto".data).fst = false ∧
      ratioGe motoField motoWord 98 = true := by
  constructor
  · decide
  · decide

/-- The C4 failing input: one vehicle with parseable km and year, an anomax
ceiling below its year (emptying the initial attempt), and the malformed
kmmax "abc". -/
def kmVehicle : Vehicle :=
  { id := .str "2".data, km := .str "10".data, ano := .str "2020".data }

/-- C4 (code evaluation at the failing input): with the malformed ceiling
kmmax = "abc" still active when the fallback loop reaches the KmMax step, the
unguarded `int(current_kmmax)` raises ValueError (modelled as `Except.error`),
while the claim requires the search to complete normally with the parameter
treated as absent. -/
theorem c4_malformed_ceiling_raises :
    search_with_fallback noTables [kmVehicle] []
      none (some "1990".data) (some "abc".data) none [] = .error () := by
  decide

theorem sort_vehicles_eq (vehicles : List Vehicle) (vm am km cm : Option PyStr) :
    sort_vehicles vehicles vm am km cm =
      if vehicles = [] then vehicles
      else
        match ccTarget cm with
        | some target_cc => pySortedBy (fun a b =>
            (((ccKey a).sub target_cc).fabs).ble (((ccKey b).sub target_cc).fabs)) vehicles
        | none =>
          match valTarget vm with
          | some target_price => pySortedBy (fun a b =>
              (((priceKey a).sub target_price).fabs).ble
                (((priceKey b).sub target_price).fabs)) vehicles
          | none =>
            if optTruthy km then
              pySortedBy (fun a b => decide (kmInfKey a ≤ kmInfKey b)) vehicles
            else if optTruthy am then
              pySortedBy (fun a b => decide (yearKey b ≤ yearKey a)) vehicles
            else pySortedBy (fun a b => (priceKey b).ble (priceKey a)) vehicles := rfl

/-- The vehicle with no price of the C6 counterexample. -/
def noPriceVehicle : Vehicle := { id := .str "A".data }

/-- The vehicle priced 1200 of the C6 counterexample. -/
def pricedVehicle : Vehicle := { id := .str "B".data, preco := .int 1200 }

/-- C6 counterexample: under valormax = "500" proximity ranking, the vehicle
with an unparseable price sorts at distance |0 - 500| = 500 and comes FIRST,
ahead of the parseable vehicle at distance 700 - refuting the claim that an
unparseable sort key sorts as infinitely distant and never precedes a
parseable one. -/
theorem c6_counterexample :
    sort_vehicles [noPriceVehicle, pricedVehicle] (some "500".data) none none none =
      [noPriceVehicle, pricedVehicle] ∧
    convert_price noPriceVehicle.preco = none ∧
    convert_price pricedVehicle.preco = some ⟨1200, 0⟩ := by
  refine ⟨by decide, rfl, rfl⟩

theorem sort_vehicles_perm (vehicles : List Vehicle) (vm am km cm : Option PyStr) :
  List.Perm (sort_vehicles vehicles vm am km cm) vehicles := by
  rw [sort_vehicles_eq]
  by_cases h0 : vehicles = []
  · rw [if_pos h0]
  rw [if_neg h0]
  cases hcc : ccTarget cm with
  | some t => exact pySortedBy_perm _ _
  | none =>
      cases hvm : valTarget vm with
      | some t => exact pySortedBy_perm _ _
      | none =>
          by_cases hk : optTruthy km = true
          · rw [if_pos hk]; exact pySortedBy_perm _ _
          · rw [if_neg hk]
            by_cases ha : optTruthy am = true
            · rw [if_pos ha]; exact pySortedBy_perm _ _
            · rw [if_neg ha]; exact pySortedBy_perm _ _

theorem sort_vehicles_km_pairwise (vehicles : List Vehicle) {s : PyStr} (hs : s ≠ []) :
  (sort_vehicles vehicles none none (some s) none).Pairwise
    (fun a b => kmInfKey a ≤ kmInfKey b) := by
  rw [sort_vehicles_eq]
  by_cases h0 : vehicles = []
  · rw [if_pos h0, h0]; exact List.Pairwise.nil
  rw [if_neg h0]
  show List.Pairwise _ (if optTruthy (some s) = true then _ else _)
  rw [if_pos (by simpa [optTruthy] using hs)]
  have hp := pySortedBy_pairwise (fun a b => decide (kmInfKey a ≤ kmInfKey b))
    (fun a b => by
      rcases le_total (kmInfKey a) (kmInfKey b) with h | h
      · exact Or.inl (by simpa using h)
      · exact Or.inr (by simpa using h))
    (fun a b c h1 h2 => by
      simp only [decide_eq_true_eq] at *
      exact le_trans h1 h2) vehicles
  exact hp.imp (fun h => by simpa using h)

theorem sort_vehicles_valormax_pairwise (vehicles : List Vehicle) {s : PyStr}
  {X : PyFloat} (hX : pyFloat? s = some X) :
  (sort_vehicles vehicles (some s) none none none).Pairwise
    (fun a b => |(priceKey a).toRat - X.toRat| ≤ |(priceKey b).toRat - X.toRat|) := by
  have hs : s ≠ [] := by
    rintro rfl
    rw [show pyFloat? [] = none from rfl] at hX
    exact Option.noConfusion hX
  have hv : valTarget (some s) = some X := by
    unfold valTarget
    rw [if_pos (by simpa [optTruthy] using hs)]
    exact hX
  rw [sort_vehicles_eq]
  by_cases h0 : vehicles = []
  · rw [if_pos h0, h0]; exact List.Pairwise.nil
  rw [if_neg h0]
  show List.Pairwise _ (match valTarget (some s) with
    | some target_price => pySortedBy (fun a b =>
        (((priceKey a).sub target_price).fabs).ble
          (((priceKey b).sub target_price).fabs)) vehicles
    | none =>
      if optTruthy none = true then
        pySortedBy (fun a b => decide (kmInfKey a ≤ kmInfKey b)) vehicles
      else if optTruthy none = true then
        pySortedBy (fun a b => decide (yearKey b ≤ yearKey a)) vehicles
      else pySortedBy (fun a b => (priceKey b).ble (priceKey a)) vehicles)
  rw [hv]
  have hp := pySortedBy_pairwise
    (fun a b => (((priceKey a).sub X).fabs).ble (((priceKey b).sub X).fabs))
    (proximity_ble_total X priceKey) (proximity_ble_trans X priceKey) vehicles
  refine hp.imp (fun h => ?_)
  rw [PyFloat.ble_iff, PyFloat.toRat_fabs, PyFloat.toRat_fabs,
    PyFloat.toRat_sub, PyFloat.toRat_sub] at h
  exact h

theorem sort_vehicles_ccmax_pairwise (vehicles : List Vehicle) {s : PyStr}
    {t : PyFloat} (ht : ccTarget (some s) = some t) :
    (sort_vehicles vehicles none none none (some s)).Pairwise
      (fun a b => |(ccKey a).toRat - t.toRat| ≤ |(ccKey b).toRat - t.toRat|) := by
  rw [sort_vehicles_eq]
  by_cases h0 : vehicles = []
  · rw [if_pos h0, h0]; exact List.Pairwise.nil
  rw [if_neg h0]
  show List.Pairwise _ (match ccTarget (some s) with
    | some target_cc => pySortedBy (fun a b =>
        (((ccKey a).sub target_cc).fabs).ble (((ccKey b).sub target_cc).fabs)) vehicles
    | none =>
      match valTarget none with
      | some target_price => pySortedBy (fun a b =>
          (((priceKey a).sub target_price).fabs).ble
            (((priceKey b).sub target_price).fabs)) vehicles
      | none =>
        if optTruthy none = true then
          pySortedBy (fun a b => decide (kmInfKey a ≤ kmInfKey b)) vehicles
        else if optTruthy none = true then
          pySortedBy (fun a b => decide (yearKey b ≤ yearKey a)) vehicles
        else pySortedBy (fun a b => (priceKey b).ble (priceKey a)) vehicles)
  rw [ht]
  have hp := pySortedBy_pairwise
    (fun a b => (((ccKey a).sub t).fabs).ble (((ccKey b).sub t).fabs))
    (proximity_ble_total t ccKey) (proximity_ble_trans t ccKey) vehicles
  refine hp.imp (fun h => ?_)
  rw [PyFloat.ble_iff, PyFloat.toRat_fabs, PyFloat.toRat_fabs,
    PyFloat.toRat_sub, PyFloat.toRat_sub] at h
  exact h

/-- C6 (amended): the sort never raises and drops nothing (every ranking mode
returns a permutation of its input); under kmmax ranking an unparseable (or
zero) odometer sorts as infinitely distant, i.e. the output is ascending in
the key that sends `None` and `0` to infinity; but under both proximity
rankings - valormax with its parsed target, and ccmax with its parsed target
(times 1000 when below 10) - an unparseable key is treated as the value 0, the
output being ascending in |(converted value or 0) - target|, so such a vehicle
can sort ahead of vehicles with parseable keys. -/
theorem c6_amended_sort_keys :
    (∀ (vehicles : List Vehicle) (vm am km cm : Option PyStr),
        List.Perm (sort_vehicles vehicles vm am km cm) vehicles) ∧
    (∀ (vehicles : List Vehicle) (s : PyStr), s ≠ [] →
        (sort_vehicles vehicles none none (some s) none).Pairwise
          (fun a b => kmInfKey a ≤ kmInfKey b)) ∧
    (∀ (vehicles : List Vehicle) (s : PyStr) (X : PyFloat), pyFloat? s = some X →
        (sort_vehicles vehicles (some s) none none none).Pairwise
          (fun a b => |(priceKey a).toRat - X.toRat| ≤ |(priceKey b).toRat - X.toRat|)) ∧
    (∀ (vehicles : List Vehicle) (s : PyStr) (t : PyFloat), ccTarget (some s) = some t →
        (sort_vehicles vehicles none none none (some s)).Pairwise
          (fun a b => |(ccKey a).toRat - t.toRat| ≤ |(ccKey b).toRat - t.toRat|)) :=
  ⟨sort_vehicles_perm, fun vehicles s hs => sort_vehicles_km_pairwise vehicles hs,
   fun vehicles s X hX => sort_vehicles_valormax_pairwise vehicles hX,
   fun vehicles s t ht => sort_vehicles_ccmax_pairwise vehicles ht⟩

/-- Witness for C6 (amended) at the counterexample inventory, covering the
kmmax, valormax and ccmax ranking modes. -/
theorem c6_amended_witness :
    (sort_vehicles [kmVehicle] none none (some "50".data) none).Pairwise
      (fun a b => kmInfKey a ≤ kmInfKey b) ∧
    (sort_vehicles [noPriceVehicle, pricedVehicle] (some "500".data) none none
        none).Pairwise
      (fun a b => |(priceKey a).toRat - (PyFloat.mk 500 0).toRat| ≤
        |(priceKey b).toRat - (PyFloat.mk 500 0).toRat|) ∧
    (sort_vehicles [noPriceVehicle, pricedVehicle] none none none
        (some "650".data)).Pairwise
      (fun a b => |(ccKey a).toRat - (PyFloat.mk 650 0).toRat| ≤
        |(ccKey b).toRat - (PyFloat.mk 650 0).toRat|) :=
  ⟨c6_amended_sort_keys.2.1 [kmVehicle] "50".data (by decide),
   c6_amended_sort_keys.2.2.1 [noPriceVehicle, pricedVehicle] "500".data ⟨500, 0⟩
     (by decide),
   c6_amended_sort_keys.2.2.2 [noPriceVehicle, pricedVehicle] "650".data ⟨650, 0⟩
     (by decide)⟩

/-- C3: `anomax` and `kmmax` are hard ceilings while `valormax` and `ccmax`
are ranking-only.  First part: for parseable ceilings, `apply_range_filters`
keeps exactly the vehicles whose converted year and km are parseable and
within the respective ceiling, whatever `valormax` and `ccmax` are (they
exclude nothing).  Second part: for `valormax = X` over an inventory in which
every vehicle has a parseable price strictly above X and no other filter is
active, the search returns a non-empty result containing every vehicle
(nothing excluded), unrelaxed, sorted by ascending |price - X|. -/
theorem c3_ceilings_vs_ranking :
    (∀ (vehicles : List Vehicle) (vm cm : Option PyStr) (sa sk : PyStr) (a k : Int),
      pyInt? sa = some a → pyInt? sk = some k →
      apply_range_filters vehicles vm (some sa) (some sk) cm =
        (vehicles.filter
            (fun v => (convert_year v.ano).any (fun y => decide (y ≤ a)))).filter
          (fun v => (convert_km v.km).any (fun n => decide (n ≤ k)))) ∧
    (∀ (T : FallbackTables) (vehicles : List Vehicle) (s : PyStr) (X : PyFloat),
      pyFloat? s = some X → vehicles ≠ [] →
      (∀ v ∈ vehicles, ((convert_price v.preco).any (fun p => X.blt p)) = true) →
      search_with_fallback T vehicles [] (some s) none none none [] =
        .ok (mkResult vehicles (some s) none none none none []) ∧
      (mkResult vehicles (some s) none none none none []).vehicles ≠ [] ∧
      (mkResult vehicles (some s) none none none none []).removed_filters = [] ∧
      (mkResult vehicles (some s) none none none none []).total_found =
        vehicles.length ∧
      (mkResult vehicles (some s) none none none none []).vehicles.Pairwise
        (fun v w => |(priceKey v).toRat - X.toRat| ≤ |(priceKey w).toRat - X.toRat|)) := by
  constructor
  · intro vehicles vm cm sa sk a k ha hk
    have hsa : sa ≠ [] := by
      rintro rfl
      rw [show pyInt? [] = none from rfl] at ha
      exact Option.noConfusion ha
    have hsk : sk ≠ [] := by
      rintro rfl
      rw [show pyInt? [] = none from rfl] at hk
      exact Option.noConfusion hk
    simp only [apply_range_filters, Option.getD_some]
    rw [if_pos (by simpa [optTruthy] using hsk), if_pos (by simpa [optTruthy] using hsa),
      ha, hk]
  · intro T vehicles s X hX hne hall
    have hrun : runQuery vehicles [] (some s) none none none [] = vehicles := rfl
    constructor
    · unfold search_with_fallback
      rw [hrun, if_pos hne]
    refine ⟨?_, rfl, rfl, ?_⟩
    · intro hcon
      have hperm := (sort_vehicles_perm vehicles (some s) none none none).length_eq
      simp only [mkResult] at hcon
      have hlen := congrArg List.length hcon
      rw [List.length_take, hperm] at hlen
      simp at hlen
      exact hne hlen
    · show ((sort_vehicles vehicles (some s) none none none).take 6).Pairwise _
      exact List.Pairwise.sublist (List.take_sublist 6 _)
        (sort_vehicles_valormax_pairwise vehicles hX)

/-- Witness for C3: a parseable pair of ceilings over a one-vehicle inventory,
and valormax = "500" over a one-vehicle inventory priced 1200 > 500. -/
theorem c3_witness :
    (apply_range_filters [kmVehicle] none (some "2021".data) (some "50".data) none =
      (([kmVehicle].filter
          (fun v => (convert_year v.ano).any (fun y => decide (y ≤ 2021)))).filter
        (fun v => (convert_km v.km).any (fun n => decide (n ≤ 50))))) ∧
    search_with_fallback noTables [pricedVehicle] [] (some "500".data) none none
        none [] =
      .ok (mkResult [pricedVehicle] (some "500".data) none none none none []) :=
  ⟨c3_ceilings_vs_ranking.1 [kmVehicle] none none "2021".data "50".data 2021 50
      (by decide) (by decide),
   (c3_ceilings_vs_ranking.2 noTables [pricedVehicle] "500".data ⟨500, 0⟩
      (by decide) (by decide) (by decide)).1⟩

theorem retestOr_ok {vehicles : List Vehicle} {excluded : List PyStr}
    {vm cm : Option PyStr} {cf2 : Filters} {removed2 : List PyStr}
    {am2 km2 : Option PyStr} {k : Except Unit SearchResult} {r : SearchResult}
    (h : retestOr vehicles excluded vm cm cf2 removed2 am2 km2 k = .ok r) :
    r.removed_filters = removed2 ∨ k = .ok r := by
  unfold retestOr at h
  split at h
  · left
    injection h with h
    rw [← h]
    rfl
  · right
    exact h

theorem fallbackLoop_length_le (T : FallbackTables) (vehicles : List Vehicle)
    (excluded : List PyStr) (vm cm : Option PyStr) :
    ∀ (steps : List PyStr) (cf : Filters) (removed : List PyStr)
      (am km : Option PyStr) (r : SearchResult),
      fallbackLoop T vehicles excluded vm cm steps cf removed am km = .ok r →
      r.removed_filters.length ≤ removed.length + steps.length := by
  intro steps
  induction steps with
  | nil =>
      intro cf removed am km r h
      rw [fallbackLoop] at h
      injection h with h
      rw [← h]
      simp
  | cons step rest ih =>
      intro cf removed am km r h
      have key : ∀ (x : PyStr) (cf2 : Filters) (am2 km2 : Option PyStr),
          retestOr vehicles excluded vm cm cf2 (removed ++ [x]) am2 km2
            (fallbackLoop T vehicles excluded vm cm rest cf2 (removed ++ [x]) am2 km2) =
            .ok r →
          r.removed_filters.length ≤ removed.length + (step :: rest).length := by
        intro x cf2 am2 km2 hre
        rcases retestOr_ok hre with h1 | h1
        · rw [h1]
          simp only [List.length_append, List.length_cons, List.length_nil]
          omega
        · have h2 := ih cf2 (removed ++ [x]) am2 km2 r h1
          simp only [List.length_append, List.length_cons, List.length_nil] at h2 ⊢
          omega
      have hskip : ∀ h2 : fallbackLoop T vehicles excluded vm cm rest cf removed am km =
            .ok r,
          r.removed_filters.length ≤ removed.length + (step :: rest).length := by
        intro h2
        have h3 := ih cf removed am km r h2
        simp only [List.length_cons] at h3 ⊢
        omega
      rw [fallbackLoop] at h
      split at h
      · -- KmMax step
        split at h
        · split at h
          · exact absurd h (by simp)
          · exact key _ _ _ _ h
        · split at h
          · exact key _ _ _ _ h
          · exact hskip h
      · split at h
        · -- AnoMax step
          split at h
          · split at h
            · exact absurd h (by simp)
            · exact key _ _ _ _ h
          · split at h
            · exact key _ _ _ _ h
            · exact hskip h
        · split at h
          · -- modelo step
            split at h
            · split at h
              · exact key _ _ _ _ h
              · exact key _ _ _ _ h
            · exact key _ _ _ _ h
          · split at h
            · exact key _ _ _ _ h
            · exact hskip h

/-- C7: for every table, inventory, filter set, range parameters and exclusion
set, `search_with_fallback` terminates (it is a total function of a single
pass over the 11-entry `FALLBACK_PRIORITY`, each entry relaxing at most one
filter; even the `ValueError` path of C4 is a terminating outcome), and every
returned result carries at most 11 relaxation records. -/
theorem c7_fallback_terminates :
    FALLBACK_PRIORITY.length = 11 ∧
    ∀ (T : FallbackTables) (vehicles : List Vehicle) (filters : Filters)
      (vm am km cm : Option PyStr) (excluded : List PyStr) (r : SearchResult),
      search_with_fallback T vehicles filters vm am km cm excluded = .ok r →
      r.removed_filters.length ≤ 11 := by
  refine ⟨rfl, ?_⟩
  intro T vehicles filters vm am km cm excluded r h
  unfold search_with_fallback at h
  split at h
  · injection h with h
    rw [← h]
    simp [mkResult]
  · have h2 := fallbackLoop_length_le T vehicles excluded vm cm FALLBACK_PRIORITY
      filters [] am km r h
    simpa using h2

/-- Witness for C7 at a query that exhausts the whole priority list. -/
theorem c7_witness :
    (search_with_fallback noTables [] [] none none none none [] =
      .ok { vehicles := [], total_found := 0, fallback_info := none,
            removed_filters := [] }) ∧
    ([] : List PyStr).length ≤ 11 := by
  constructor
  · decide
  · exact (c7_fallback_terminates.2 noTables [] [] none none none none []
      { vehicles := [], total_found := 0, fallback_info := none, removed_filters := [] }
      (by decide)).trans_eq rfl

theorem fallbackLoop_skip {T : FallbackTables} {vehicles : List Vehicle}
    {excluded : List PyStr} {vm cm : Option PyStr} {step : PyStr} {rest : List PyStr}
    {cf : Filters} {removed : List PyStr} {am km : Option PyStr}
    (h1 : ¬(step = "KmMax".data ∧ optTruthy km = true))
    (h2 : ¬(step = "AnoMax".data ∧ optTruthy am = true))
    (h3 : ¬(step = "modelo".data ∧ filtersHas cf "modelo".data = true))
    (h4 : ¬ filtersHas cf step = true) :
    fallbackLoop T vehicles excluded vm cm (step :: rest) cf removed am km =
      fallbackLoop T vehicles excluded vm cm rest cf removed am km := by
  rw [fallbackLoop, if_neg h1, if_neg h2, if_neg h3, if_neg h4]

theorem fallbackLoop_km_keep {T : FallbackTables} {vehicles : List Vehicle}
    {excluded : List PyStr} {vm cm : Option PyStr} {rest : List PyStr}
    {cf : Filters} {removed : List PyStr} {am : Option PyStr} {s : PyStr}
    {maxk : Int} (hs : s ≠ []) (hp : pyInt? s = some maxk)
    (hwithin : (apply_filters vehicles cf).filter
        (fun v => (convert_km v.km).any (fun n => decide (n ≤ maxk))) ≠ []) :
    fallbackLoop T vehicles excluded vm cm ("KmMax".data :: rest) cf removed am (some s) =
      fallbackLoop T vehicles excluded vm cm rest cf removed am (some s) := by
  rw [fallbackLoop, if_pos ⟨rfl, by simpa [optTruthy] using hs⟩]
  simp only [Option.getD_some, hp]
  rw [if_neg hwithin]

theorem runQuery_km_only {vehicles : List Vehicle} {s : PyStr} {maxk : Int}
    {excluded : List PyStr} (hs : s ≠ []) (hp : pyInt? s = some maxk) :
    runQuery vehicles [] none none (some s) none excluded =
      excludeIds excluded
        (vehicles.filter (fun v => (convert_km v.km).any (fun n => decide (n ≤ maxk)))) := by
  unfold runQuery
  congr 1
  show apply_range_filters vehicles none none (some s) none = _
  simp only [apply_range_filters, Option.getD_some, optTruthy]
  rw [if_pos (by simpa using hs), hp]
  simp

/-- C9: the decision to keep a kmmax ceiling in the fallback loop tests
candidates under only the active named filters, ignoring the exclusion set:
whenever some vehicle lies within the ceiling but every such vehicle is
excluded (here with no named filters and no other range parameter), the
KmMax step is skipped without relaxing, every later step is inapplicable, and
the search ends empty - total_found 0, no filter ever removed - even though
no re-test under the retained ceiling can return an excluded vehicle. -/
theorem c9_km_keep_ignores_exclusions (T : FallbackTables)
    (vehicles : List Vehicle) (s : PyStr) (maxk : Int) (excluded : List PyStr)
    (hp : pyInt? s = some maxk)
    (hex : ∃ v ∈ vehicles, (convert_km v.km).any (fun n => decide (n ≤ maxk)) = true)
    (hall : ∀ v ∈ vehicles, (convert_km v.km).any (fun n => decide (n ≤ maxk)) = true →
      excluded.contains v.id.toStr = true) :
    search_with_fallback T vehicles [] none none (some s) none excluded =
      .ok { vehicles := [], total_found := 0, fallback_info := none,
            removed_filters := [] } := by
  have hs : s ≠ [] := by
    rintro rfl
    rw [show pyInt? [] = none from rfl] at hp
    exact Option.noConfusion hp
  obtain ⟨v0, hv0, hin0⟩ := hex
  have hexne : excluded ≠ [] := by
    have hc := hall v0 hv0 hin0
    intro hcon
    rw [hcon] at hc
    exact absurd hc (by simp [List.contains])
  have hrq : runQuery vehicles [] none none (some s) none excluded = [] := by
    rw [runQuery_km_only hs hp]
    unfold excludeIds
    rw [if_pos hexne, List.filter_eq_nil_iff]
    intro v hv
    have hmem := List.mem_filter.mp hv
    have hc := hall v hmem.1 hmem.2
    intro hcon
    rw [hc] at hcon
    exact absurd hcon (by decide)
  have hwithin : (apply_filters vehicles ([] : Filters)).filter
      (fun v => (convert_km v.km).any (fun n => decide (n ≤ maxk))) ≠ [] := by
    show vehicles.filter _ ≠ []
    exact List.ne_nil_of_mem (List.mem_filter.mpr ⟨hv0, hin0⟩)
  unfold search_with_fallback
  rw [if_neg (by simp [hrq])]
  show fallbackLoop T vehicles excluded none none
    ("motor".data :: "portas".data :: "cor".data :: "combustivel".data ::
      "opcionais".data :: "cambio".data :: "KmMax".data :: "AnoMax".data ::
      "modelo".data :: "marca".data :: "categoria".data :: []) [] [] none (some s) = _
  rw [fallbackLoop_skip (fun h => absurd h.1 (by decide))
      (fun h => absurd h.2 (by decide)) (fun h => absurd h.1 (by decide)) (by decide)]
  rw [fallbackLoop_skip (fun h => absurd h.1 (by decide))
      (fun h => absurd h.2 (by decide)) (fun h => absurd h.1 (by decide)) (by decide)]
  rw [fallbackLoop_skip (fun h => absurd h.1 (by decide))
      (fun h => absurd h.2 (by decide)) (fun h => absurd h.1 (by decide)) (by decide)]
  rw [fallbackLoop_skip (fun h => absurd h.1 (by decide))
      (fun h => absurd h.2 (by decide)) (fun h => absurd h.1 (by decide)) (by decide)]
  rw [fallbackLoop_skip (fun h => absurd h.1 (by decide))
      (fun h => absurd h.2 (by decide)) (fun h => absurd h.1 (by decide)) (by decide)]
  rw [fallbackLoop_skip (fun h => absurd h.1 (by decide))
      (fun h => absurd h.2 (by decide)) (fun h => absurd h.1 (by decide)) (by decide)]
  rw [fallbackLoop_km_keep hs hp hwithin]
  rw [fallbackLoop_skip (fun h => absurd h.1 (by decide))
      (fun h => absurd h.2 (by decide)) (fun h => absurd h.1 (by decide)) (by decide)]
  rw [fallbackLoop_skip (fun h => absurd h.1 (by decide))
      (fun h => absurd h.2 (by decide)) (fun h => absurd h.2 (by decide)) (by decide)]
  rw [fallbackLoop_skip (fun h => absurd h.1 (by decide))
      (fun h => absurd h.2 (by decide)) (fun h => absurd h.1 (by decide)) (by decide)]
  rw [fallbackLoop_skip (fun h => absurd h.1 (by decide))
      (fun h => absurd h.2 (by decide)) (fun h => absurd h.1 (by decide)) (by decide)]
  rw [fallbackLoop]

/-- Witness for C9: one vehicle with km 10 within the ceiling 50, and exactly
its id excluded. -/
theorem c9_witness :
    search_with_fallback noTables [kmVehicle] [] none none (some "50".data) none
      ["2".data] =
    .ok { vehicles := [], total_found := 0, fallback_info := none,
          removed_filters := [] } :=
  c9_km_keep_ignores_exclusions noTables [kmVehicle] "50".data 50 ["2".data]
    (by decide) (by decide) (by decide)
